import Mathlib

/-!
Verification of the transfer-guru backend (`src/backend/main.py`) against its
specification.  The Python source is shallowly embedded: spreadsheet cell
values become a tagged variant, pandas DataFrames become lists of records,
Python floats are idealized as exact rationals (`ℚ`), and functions that can
raise return `Except`.  All definitions are executable; Python string
primitives (`lower`, `strip`, `startswith`, comparison) are modelled by
structurally recursive char-list functions so that concrete runs reduce in
the kernel.
-/

namespace TransferGuru

/-- A spreadsheet cell value as seen by the loader (openpyxl with
`values_only`): Python `None`, a numeric value (int/float, idealized as `ℚ`),
a text string, or some other object (e.g. a datetime). -/
inductive CellValue where
  | none
  | num (q : ℚ)
  | str (s : String)
  | other
deriving DecidableEq

/-- One normalized transaction row (one element of the DataFrame built by
`load_xlsx_data`; the spec calls it `TransactionRecord`). -/
structure TransactionRecord where
  legal_name : String
  brand_name : String
  acquirer : String
  currency : String
  amount : ℚ
  fee : ℚ
  psp_buy_fee : ℚ
  type : String
  status : String
deriving DecidableEq, Inhabited

/-! ### Python string primitives -/

/-- Python `s.startswith("=")`. -/
def startsWithEq (s : String) : Bool :=
  match s.toList with
  | '=' :: _ => true
  | _ => false

/-- Python `s.lower()` (ASCII case folding suffices for the data involved). -/
def pyLower (s : String) : String :=
  (s.toList.map Char.toLower).asString

/-- Strip leading and trailing whitespace from a char list (Python `strip`). -/
def stripChars (cs : List Char) : List Char :=
  ((cs.dropWhile Char.isWhitespace).reverse.dropWhile Char.isWhitespace).reverse

/-- Python `s.strip()`. -/
def pyStrip (s : String) : String :=
  (stripChars s.toList).asString

/-- Python `s.lower().strip()`. -/
def pyLowerStrip (s : String) : String :=
  pyStrip (pyLower s)

/-- Python `s.replace(c, d)` for single characters. -/
def pyReplaceChar (c d : Char) (s : String) : String :=
  (s.toList.map fun x => if x = c then d else x).asString

/-- Python `s.upper()` (ASCII case folding suffices for the data involved). -/
def pyUpper (s : String) : String :=
  (s.toList.map Char.toUpper).asString

/-! ### Numeric normalizer -/

/-- Value of a list of decimal digit characters (most significant first). -/
def digitsToNat (ds : List Char) : ℕ :=
  ds.foldl (fun n c => 10 * n + (c.toNat - 48)) 0

/-- Nonempty all-digit character list. -/
def isDigits (ds : List Char) : Bool :=
  !ds.isEmpty && ds.all (·.isDigit)

/-- Optionally signed nonempty digit string, as an integer (the exponent part
of a float literal). -/
def parseSignedInt (l : List Char) : Option ℤ :=
  match l with
  | '+' :: rest => if isDigits rest then some (digitsToNat rest : ℤ) else Option.none
  | '-' :: rest => if isDigits rest then some (-(digitsToNat rest : ℤ)) else Option.none
  | rest => if isDigits rest then some (digitsToNat rest : ℤ) else Option.none

/-- Unsigned mantissa of a float literal: digits with at most one decimal
point and at least one digit overall (`"12"`, `"12."`, `".5"`, `"1.5"`). -/
def parseMantissa (m : List Char) : Option ℚ :=
  match m.splitOn '.' with
  | [ip] => if isDigits ip then some (digitsToNat ip : ℚ) else Option.none
  | [ip, fp] =>
      if ip.isEmpty && fp.isEmpty then Option.none
      else if ip.all (·.isDigit) && fp.all (·.isDigit) then
        some ((digitsToNat ip : ℚ) + (digitsToNat fp : ℚ) / ((10 : ℚ) ^ fp.length))
      else Option.none
  | _ => Option.none

/-- Model of CPython `float(s)` on the decimal-literal fragment: surrounding
whitespace, an optional sign, a mantissa with at most one `.`, and an optional
`e`/`E` exponent.  Special forms (`inf`, `nan`, digit-group underscores) are
outside the fragment exercised by the spec and are rejected; no claim
depends on them.  `Option.none` models a `ValueError`. -/
def pyFloat (s : String) : Option ℚ :=
  let cs := stripChars s.toList
  let signedBody : Bool × List Char :=
    match cs with
    | '+' :: rest => (false, rest)
    | '-' :: rest => (true, rest)
    | rest => (false, rest)
  let lower := signedBody.2.map (fun c => if c = 'E' then 'e' else c)
  let mag : Option ℚ :=
    match lower.splitOn 'e' with
    | [m] => parseMantissa m
    | [m, e] =>
        match parseMantissa m, parseSignedInt e with
        | some mv, some ev => some (mv * (10 : ℚ) ^ ev)
        | _, _ => Option.none
    | _ => Option.none
  mag.map (fun q => if signedBody.1 then -q else q)

/-- Embeds `parse_european_number` (main.py:43-59): `None` → 0, numeric → itself,
text → 0 if it is a formula remnant (leading `=`), otherwise every comma is
replaced by a period and the result parsed as a float, any parse failure
giving 0; any other object → 0. -/
def parse_european_number (value : CellValue) : ℚ :=
  match value with
  | CellValue.none => 0
  | CellValue.num q => q
  | CellValue.str s =>
      if startsWithEq s then 0
      else
        match pyFloat (pyReplaceChar ',' '.' s) with
        | some q => q
        | Option.none => 0
  | CellValue.other => 0

/-! ### Row classifier and extractor -/

/-- A raw spreadsheet row, indexed by column position.  openpyxl's
`iter_rows(values_only=True)` pads rows to the sheet's width with `None`;
out-of-range access is modelled as `None` (a sheet narrower than the fixed
column layout falls under the structural-failure abstraction of the load
endpoints). -/
abbrev Row := List CellValue

/-- Cell at column `i` of a row. -/
def getCell (row : Row) (i : ℕ) : CellValue :=
  row.getD i CellValue.none

/-- Embeds `COLUMNS` (main.py:28-38): fixed column positions of the nine semantic
fields. -/
def COLUMNS (field : String) : ℕ :=
  if field = "legal_name" then 0
  else if field = "brand_name" then 1
  else if field = "acquirer" then 2
  else if field = "currency" then 5
  else if field = "amount" then 6
  else if field = "fee" then 8
  else if field = "psp_buy_fee" then 11
  else if field = "type" then 14
  else if field = "status" then 15
  else 0

/-- Embeds `HEADER_ROW` (main.py:40): 0-indexed header row; data starts two rows
below it (`iter_rows(min_row=HEADER_ROW + 2)` with 1-indexed `min_row`,
i.e. the first `HEADER_ROW + 1` rows are skipped). -/
def HEADER_ROW : ℕ := 16

/-- Python `str(cell or "")` for the string-valued columns: falsy cells
(`None`, `0`, `""`) give `""`, everything else is stringified.  The exact
text CPython renders for a non-string cell is irrelevant to every claim; a
numeric cell is rendered here as `num/den`. -/
def strOrEmpty (c : CellValue) : String :=
  match c with
  | CellValue.none => ""
  | CellValue.num q => if q = 0 then "" else toString q.num ++ "/" ++ toString q.den
  | CellValue.str s => s
  | CellValue.other => "object"

/-- Python `str(status_val).lower().strip()` fallback for a non-string status cell
(main.py:82); same caveat on the rendering of non-strings as `strOrEmpty`. -/
def pyStrLowerTrim (c : CellValue) : String :=
  match c with
  | CellValue.str s => pyLowerStrip s
  | CellValue.num q => pyLowerStrip (toString q.num ++ "/" ++ toString q.den)
  | CellValue.none => "none"
  | CellValue.other => "object"

/-- The per-row body of the loop in `load_xlsx_data` (main.py:68-94): skip
the row if the type or status cell is `None`, if the type cell is a string
beginning with `=`, or if the type cell is not a string; otherwise build the
record (string fields via `str(x or "")`, numeric fields via
`parse_european_number`, type/status lowercased and trimmed). -/
def parseDataRow (row : Row) : Option TransactionRecord :=
  let type_val := getCell row (COLUMNS "type")
  let status_val := getCell row (COLUMNS "status")
  if type_val = CellValue.none ∨ status_val = CellValue.none then Option.none
  else
    match type_val with
    | CellValue.str s =>
        if startsWithEq s then Option.none
        else
          some
            { legal_name := strOrEmpty (getCell row (COLUMNS "legal_name"))
              brand_name := strOrEmpty (getCell row (COLUMNS "brand_name"))
              acquirer := strOrEmpty (getCell row (COLUMNS "acquirer"))
              currency := strOrEmpty (getCell row (COLUMNS "currency"))
              amount := parse_european_number (getCell row (COLUMNS "amount"))
              fee := parse_european_number (getCell row (COLUMNS "fee"))
              psp_buy_fee := parse_european_number (getCell row (COLUMNS "psp_buy_fee"))
              type := pyLowerStrip s
              status := pyStrLowerTrim status_val }
    | _ => Option.none

/-- Embeds `load_xlsx_data` (main.py:62-97): skip the title/header region, then
classify and extract each remaining row in order. -/
def load_xlsx_data (sheet : List Row) : List TransactionRecord :=
  (sheet.drop (HEADER_ROW + 1)).filterMap parseDataRow

/-! ### Operation filter -/

/-- Embeds `filter_by_operation_type` (main.py:100-120). -/
def filter_by_operation_type (df : List TransactionRecord) (op_type : ℤ) :
    Except String (List TransactionRecord) :=
  if op_type = 1 then
    Except.ok (df.filter fun r =>
      decide (r.type = "purchase") &&
      (decide (r.status = "paid") || decide (r.status = "refunded") ||
        decide (r.status = "chargedback")))
  else if op_type = 2 then
    Except.ok (df.filter fun r => decide (r.type = "refund") && decide (r.status = "success"))
  else if op_type = 3 then
    Except.ok (df.filter fun r => decide (r.type = "chargeback") && decide (r.status = "success"))
  else if op_type = 4 then
    Except.ok (df.filter fun r => decide (r.type = "payout") && decide (r.status = "success"))
  else Except.error "Unknown operation type"

example : pyFloat "1.234.56" = Option.none := by decide
example : parse_european_number (CellValue.str "1.234,56") = 0 := by decide
example : parse_european_number (CellValue.str "=A1+B2") = 0 := by decide
example : parse_european_number CellValue.none = 0 := by decide
example : parse_european_number (CellValue.str "x1y") = 0 := by decide

/-! ### Rounding

Python `round(x, 2)` rounds half to even; over the exact-rational
idealization of floats this is round-half-even of `100 * x`, divided by
100. -/

/-- Round half to even to the nearest integer. -/
def roundHalfEven (q : ℚ) : ℤ :=
  let f : ℤ := ⌊q⌋
  let r : ℚ := q - (f : ℚ)
  if r < 1 / 2 then f
  else if 1 / 2 < r then f + 1
  else if f % 2 = 0 then f else f + 1

/-- Python `round(x, 2)`. -/
def round2 (q : ℚ) : ℚ :=
  (roundHalfEven (q * 100) : ℚ) / 100

/-! ### Pivot aggregator

`build_pivot_by_acquirer` and `build_pivot_by_merchant`
(main.py:123-186, 189-252) are textually identical up to the choice and
order of the two outer grouping columns, so they are embedded as two
instances of one parametrized definition.  pandas specifics embedded here:

* `df.groupby([c1, c2, "currency"])` with the default `sort=True` produces
  one aggregate row per distinct key triple, enumerated in ascending
  lexicographic order of the triple (Python string comparison, i.e. by code
  point);
* `Series.unique()` preserves first-appearance order;
* `.agg(amount=sum, ..., count=("amount", "count"))` computes per-group sums
  and sizes;
* the JSON dicts built by the Python code become the structures
  `CurrencyEntry`/`Level2Group`/`Level1Group`/`PivotResult` (the Python
  field names `merchants`/`acquirers` both become `children`). -/

/-- One row of the `grouped` DataFrame: a key triple with the exact per-group
sums and count. -/
structure GRow where
  k1 : String
  k2 : String
  currency : String
  amount : ℚ
  fee : ℚ
  psp_buy_fee : ℚ
  count : ℕ
deriving DecidableEq

/-- Innermost pivot entry (one currency line). -/
structure CurrencyEntry where
  currency : String
  amount : ℚ
  fee : ℚ
  psp_buy_fee : ℚ
  count : ℕ
deriving DecidableEq

/-- amount/fee/psp_buy_fee/count quadruple (a `totals`/`subtotals` dict). -/
structure Totals where
  amount : ℚ
  fee : ℚ
  psp_buy_fee : ℚ
  count : ℕ
deriving DecidableEq

/-- Middle pivot level. -/
structure Level2Group where
  key : String
  currencies : List CurrencyEntry
  subtotals : Totals
deriving DecidableEq

/-- Outer pivot level. -/
structure Level1Group where
  key : String
  children : List Level2Group
  subtotals : Totals
deriving DecidableEq

/-- A whole pivot tree. -/
structure PivotResult where
  groups : List Level1Group
  totals : Totals
deriving DecidableEq

/-- Lexicographic strict comparison of char lists by code point (Python
string `<`). -/
def listLtB : List Char → List Char → Bool
  | [], [] => false
  | [], _ :: _ => true
  | _ :: _, [] => false
  | a :: as, b :: bs =>
      if a.toNat < b.toNat then true
      else if b.toNat < a.toNat then false
      else listLtB as bs

/-- Python string `<`. -/
def strLtB (a b : String) : Bool :=
  listLtB a.toList b.toList

/-- Python string `<=`. -/
def strLeB (a b : String) : Bool :=
  !strLtB b a

/-- Lexicographic `<=` on key triples (the sort order of a pandas groupby
over three string columns). -/
def keyLe (a b : String × String × String) : Bool :=
  if a.1 = b.1 then
    if a.2.1 = b.2.1 then strLeB a.2.2 b.2.2
    else strLtB a.2.1 b.2.1
  else strLtB a.1 b.1

/-- The sort order as a decidable relation for `List.insertionSort`. -/
def keyOrder (a b : String × String × String) : Prop :=
  keyLe a b = true

instance : DecidableRel keyOrder := fun a b => instDecidableEqBool (keyLe a b) true

/-- First-appearance-order deduplication (`Series.unique()`), structurally
recursive over the input with an accumulator of already-seen values. -/
def pdUniqueAux {α : Type} [DecidableEq α] (seen : List α) : List α → List α
  | [] => []
  | x :: xs => if x ∈ seen then pdUniqueAux seen xs else x :: pdUniqueAux (x :: seen) xs

/-- Pandas `Series.unique()`: distinct values in order of first appearance. -/
def pdUnique {α : Type} [DecidableEq α] (l : List α) : List α :=
  pdUniqueAux [] l

/-- The grouping key of a record under outer key `k1f` and middle key
`k2f`. -/
def rowKey (k1f k2f : TransactionRecord → String) (r : TransactionRecord) :
    String × String × String :=
  (k1f r, k2f r, r.currency)

/-- One aggregate row of `grouped` for key triple `k`: exact sums and count
over the records with that key. -/
def mkGRow (k1f k2f : TransactionRecord → String) (df : List TransactionRecord)
    (k : String × String × String) : GRow :=
  let rs := df.filter fun r => decide (rowKey k1f k2f r = k)
  { k1 := k.1
    k2 := k.2.1
    currency := k.2.2
    amount := (rs.map (·.amount)).sum
    fee := (rs.map (·.fee)).sum
    psp_buy_fee := (rs.map (·.psp_buy_fee)).sum
    count := rs.length }

/-- The `grouped = df.groupby([k1, k2, "currency"]).agg(...).reset_index()`
DataFrame: one aggregate row per distinct key triple, in ascending
lexicographic key order (pandas groupby sorts keys by default). -/
def groupedRows (k1f k2f : TransactionRecord → String) (df : List TransactionRecord) :
    List GRow :=
  (List.insertionSort keyOrder (pdUnique (df.map (rowKey k1f k2f)))).map (mkGRow k1f k2f df)

/-- Rounded totals of a slice of `grouped` rows (the repeated
`"amount": round(slice["amount"].sum(), 2), ..., "count": int(...)`
dict). -/
def totalsOfRows (rows : List GRow) : Totals :=
  { amount := round2 ((rows.map (·.amount)).sum)
    fee := round2 ((rows.map (·.fee)).sum)
    psp_buy_fee := round2 ((rows.map (·.psp_buy_fee)).sum)
    count := (rows.map (·.count)).sum }

/-- Common body of `build_pivot_by_acquirer`/`build_pivot_by_merchant`,
parametrized by the two outer grouping columns. -/
def build_pivot (k1f k2f : TransactionRecord → String) (df : List TransactionRecord) :
    PivotResult :=
  if df.isEmpty then { groups := [], totals := ⟨0, 0, 0, 0⟩ }
  else
    let grouped := groupedRows k1f k2f df
    { groups :=
        (pdUnique (grouped.map (·.k1))).map fun a =>
          let acqData := grouped.filter fun g => decide (g.k1 = a)
          { key := a
            children :=
              (pdUnique (acqData.map (·.k2))).map fun l =>
                let mData := acqData.filter fun g => decide (g.k2 = l)
                { key := l
                  currencies := mData.map fun row =>
                    { currency := row.currency
                      amount := round2 row.amount
                      fee := round2 row.fee
                      psp_buy_fee := round2 row.psp_buy_fee
                      count := row.count }
                  subtotals := totalsOfRows mData }
            subtotals := totalsOfRows acqData }
      totals := totalsOfRows grouped }

/-- Embeds `build_pivot_by_acquirer` (main.py:123-186): Acquirer → Legal Name →
Currency. -/
def build_pivot_by_acquirer (df : List TransactionRecord) : PivotResult :=
  build_pivot (·.acquirer) (·.legal_name) df

/-- Embeds `build_pivot_by_merchant` (main.py:189-252): Legal Name → Acquirer →
Currency. -/
def build_pivot_by_merchant (df : List TransactionRecord) : PivotResult :=
  build_pivot (·.legal_name) (·.acquirer) df

/-! ### Exact (pre-rounding) aggregates

Observation functions used to state the subtotal and rounding invariants:
the exact, unrounded aggregate of a set of records, and sums of such
aggregates. -/

/-- The exact (pre-rounding) amount/fee/psp_buy_fee sums and count of a list
of records. -/
def exactTotals (rs : List TransactionRecord) : Totals :=
  { amount := (rs.map (·.amount)).sum
    fee := (rs.map (·.fee)).sum
    psp_buy_fee := (rs.map (·.psp_buy_fee)).sum
    count := rs.length }

/-- Componentwise sum of a list of `Totals`. -/
def totalsSum : List Totals → Totals
  | [] => ⟨0, 0, 0, 0⟩
  | t :: ts =>
      let s := totalsSum ts
      ⟨t.amount + s.amount, t.fee + s.fee, t.psp_buy_fee + s.psp_buy_fee, t.count + s.count⟩

/-- Round the three monetary components to 2 decimals; the count is exact. -/
def roundTotals (t : Totals) : Totals :=
  ⟨round2 t.amount, round2 t.fee, round2 t.psp_buy_fee, t.count⟩

/-- Every reported figure of the pivot tree `p` built over `df` is the
2-decimal rounding of the exact unrounded sum over exactly the underlying
records of the node (and every reported count is the exact number of those
records): the grand total over all of `df`, each level-1 subtotal over the
records with that outer key, each level-2 subtotal over the records with
that outer and middle key, and each currency line over the records with all
three keys. -/
def RoundedReporting (k1f k2f : TransactionRecord → String) (df : List TransactionRecord)
    (p : PivotResult) : Prop :=
  p.totals = roundTotals (exactTotals df) ∧
  ∀ G ∈ p.groups,
    G.subtotals = roundTotals (exactTotals (df.filter fun r => decide (k1f r = G.key))) ∧
    ∀ c ∈ G.children,
      c.subtotals = roundTotals (exactTotals (df.filter fun r =>
        decide (k1f r = G.key ∧ k2f r = c.key))) ∧
      ∀ e ∈ c.currencies,
        e.amount = round2 (exactTotals (df.filter fun r =>
          decide (k1f r = G.key ∧ k2f r = c.key ∧ r.currency = e.currency))).amount ∧
        e.fee = round2 (exactTotals (df.filter fun r =>
          decide (k1f r = G.key ∧ k2f r = c.key ∧ r.currency = e.currency))).fee ∧
        e.psp_buy_fee = round2 (exactTotals (df.filter fun r =>
          decide (k1f r = G.key ∧ k2f r = c.key ∧ r.currency = e.currency))).psp_buy_fee ∧
        e.count = (exactTotals (df.filter fun r =>
          decide (k1f r = G.key ∧ k2f r = c.key ∧ r.currency = e.currency))).count

/-- The exact pre-rounding aggregates underlying the nodes of `p` are
additive: the whole-dataset aggregate is the sum of the level-1 groups'
exact aggregates, each level-1 exact aggregate is the sum of its children's,
and each level-2 exact aggregate is the sum of its currency lines'. -/
def ExactAdditivity (k1f k2f : TransactionRecord → String) (df : List TransactionRecord)
    (p : PivotResult) : Prop :=
  exactTotals df = totalsSum (p.groups.map fun G =>
    exactTotals (df.filter fun r => decide (k1f r = G.key))) ∧
  ∀ G ∈ p.groups,
    exactTotals (df.filter fun r => decide (k1f r = G.key)) =
      totalsSum (G.children.map fun c =>
        exactTotals (df.filter fun r => decide (k1f r = G.key ∧ k2f r = c.key))) ∧
    ∀ c ∈ G.children,
      exactTotals (df.filter fun r => decide (k1f r = G.key ∧ k2f r = c.key)) =
        totalsSum (c.currencies.map fun e =>
          exactTotals (df.filter fun r =>
            decide (k1f r = G.key ∧ k2f r = c.key ∧ r.currency = e.currency)))

/-- The group keys of a pivot tree are in strictly ascending (Python
string, i.e. code-point lexicographic) order at every level: the level-1
group keys, each group's child keys, and each child's currency lines. -/
def AscendingKeys (p : PivotResult) : Prop :=
  (p.groups.map Level1Group.key).Pairwise (fun x y => strLtB x y = true) ∧
  ∀ G ∈ p.groups,
    (G.children.map Level2Group.key).Pairwise (fun x y => strLtB x y = true) ∧
    ∀ c ∈ G.children,
      (c.currencies.map CurrencyEntry.currency).Pairwise (fun x y => strLtB x y = true)

/-! ### Service endpoints

The HTTP layer is external ballast; each endpoint is embedded as a pure
function of the process-wide `DATA_STORE` (and, for the load endpoints, of
the outcome of the external spreadsheet reader).  A raised
`HTTPException`/`ValueError`/`KeyError` becomes `Except.error`.

One pandas detail matters here: `pd.DataFrame(data)` built from a list of
row dicts carries the named columns exactly when the list is nonempty, so
the loader's zero-admissible-row output is a column-less frame on which any
`df["type"]`-style column access — including the `groupby` of the
`type_status_breakdown` statistics step — raises `KeyError`.  `PandasFrame`
records this; definitions over a plain record list model the behavior of a
frame that has its columns (every filtered sub-frame of such a frame keeps
them, so the pivot builders only ever see columned frames).  The value of
`type_status_breakdown` is not modelled (no claim refers to it), only the
fact that computing it raises on the column-less frame. -/

/-- A pandas DataFrame as produced by the loader: its records plus whether
the frame carries the nine named columns.  `pd.DataFrame(data)` built from a
list of row dicts has the columns exactly when the list is nonempty; the
loader's zero-row output is a column-less frame on which `df["type"]`
raises `KeyError`. -/
structure PandasFrame where
  rows : List TransactionRecord
  hasColumns : Bool
deriving DecidableEq

/-- Embeds `load_xlsx_data` (main.py:62-97) at the DataFrame level: the
extracted records, in a frame that has its columns iff at least one record
was extracted. -/
def load_xlsx_frame (sheet : List Row) : PandasFrame :=
  ⟨load_xlsx_data sheet, !(load_xlsx_data sheet).isEmpty⟩

/-- Embeds `filter_by_operation_type` at the DataFrame level: each of the
four operation branches evaluates `df["type"]`/`df["status"]`, which on the
column-less frame raises `KeyError` before anything is selected; the final
branch raises `ValueError` without touching any column. -/
def filter_frame_by_operation_type (df : PandasFrame) (op_type : ℤ) :
    Except String (List TransactionRecord) :=
  if op_type = 1 ∨ op_type = 2 ∨ op_type = 3 ∨ op_type = 4 then
    if df.hasColumns then filter_by_operation_type df.rows op_type
    else Except.error "KeyError: type"
  else Except.error "Unknown operation type"

/-- Embeds `DATA_STORE` (main.py:22-25) at the DataFrame level. -/
structure FrameStore where
  df : Option PandasFrame
  filename : Option String
deriving DecidableEq

/-- Embeds `DATA_STORE` (main.py:22-25). -/
structure DataStore where
  df : Option (List TransactionRecord)
  filename : Option String
deriving DecidableEq

/-- Response of the two load endpoints (stats omitted, see above). -/
structure UploadResponse where
  success : Bool
  filename : String
  total_rows : ℕ
deriving DecidableEq

/-- Embeds `upload_file` (main.py:269-296).  The outcome of writing the upload to a
temp file and opening it with openpyxl is external; `source` is that
outcome: `Except.error` when the bytes cannot be opened/parsed as a workbook
(`load_workbook` raised), otherwise the sheet's rows.  Returns the new store
and the response. -/
def upload_file (store : DataStore) (filename : String) (source : Except String (List Row)) :
    DataStore × Except String UploadResponse :=
  if !".xlsx".toList.isSuffixOf filename.toList then
    (store, Except.error "Only .xlsx files are supported")
  else
    match source with
    | Except.error e => (store, Except.error e)
    | Except.ok sheet =>
        let df := load_xlsx_data sheet
        ({ df := some df, filename := some filename },
          Except.ok { success := true, filename := filename, total_rows := df.length })

/-- Embeds `load_default_file` (main.py:299-320).  `fileFound` models
`os.path.exists`; `source` models opening the default workbook as in
`upload_file`. -/
def load_default_file (store : DataStore) (fileFound : Bool)
    (source : Except String (List Row)) : DataStore × Except String UploadResponse :=
  if !fileFound then (store, Except.error "Default file not found")
  else
    match source with
    | Except.error e => (store, Except.error e)
    | Except.ok sheet =>
        let df := load_xlsx_data sheet
        ({ df := some df, filename := some "tab.xlsx" },
          Except.ok { success := true, filename := "tab.xlsx", total_rows := df.length })

/-- Embeds `upload_file` (main.py:269-296) at the DataFrame level, adding
the raising behavior of the `type_status_breakdown` statistics step: the
store is mutated first (main.py:282-283), then the statistics
`df.groupby(["type", "status"])` (main.py:286) raises `KeyError` on the
column-less zero-record frame — so a zero-record load reports an error
while still having replaced the store with the empty frame. -/
def upload_file_frame (store : FrameStore) (filename : String)
    (source : Except String (List Row)) : FrameStore × Except String UploadResponse :=
  if !".xlsx".toList.isSuffixOf filename.toList then
    (store, Except.error "Only .xlsx files are supported")
  else
    match source with
    | Except.error e => (store, Except.error e)
    | Except.ok sheet =>
        let df := load_xlsx_frame sheet
        if df.hasColumns then
          ({ df := some df, filename := some filename },
            Except.ok { success := true, filename := filename,
                        total_rows := df.rows.length })
        else
          ({ df := some df, filename := some filename }, Except.error "KeyError: type")

/-- The `if currency: df = df[df["currency"] == currency.upper()]` step of
`get_pivot` (main.py:345-346); Python truthiness makes both `None` and the
empty string skip the filter. -/
def applyCurrencyFilter (currency : Option String) (df : List TransactionRecord) :
    List TransactionRecord :=
  match currency with
  | some c => if c = "" then df else df.filter fun r => decide (r.currency = pyUpper c)
  | Option.none => df

/-- Response of `get_pivot`. -/
structure PivotResponse where
  operation_type : ℤ
  view_type : ℤ
  currency_filter : Option String
  data : PivotResult
deriving DecidableEq

/-- Embeds `get_pivot` (main.py:323-359). -/
def get_pivot (store : DataStore) (operation_type : ℤ) (view_type : ℤ)
    (currency : Option String) : Except String PivotResponse :=
  match store.df with
  | Option.none => Except.error "No data loaded. Upload a file first."
  | some df0 =>
      match filter_by_operation_type df0 operation_type with
      | Except.error e => Except.error e
      | Except.ok df1 =>
          let df2 := applyCurrencyFilter currency df1
          let pivot :=
            if view_type = 1 then build_pivot_by_acquirer df2 else build_pivot_by_merchant df2
          Except.ok
            { operation_type := operation_type, view_type := view_type,
              currency_filter := currency, data := pivot }

/-- One entry of the `get_summary` response. -/
structure OperationSummary where
  operation_type : ℤ
  name : String
  count : ℕ
  total_amount : ℚ
  total_fee : ℚ
  total_psp_buy_fee : ℚ
deriving DecidableEq

/-- Embeds `operation_names` (main.py:381-386). -/
def operation_names (op : ℤ) : String :=
  if op = 1 then "Purchase (paid/refunded/chargedback)"
  else if op = 2 then "Refund (success)"
  else if op = 3 then "Chargeback (success)"
  else if op = 4 then "Payout (success)"
  else ""

/-- One iteration of the summary loop (main.py:388-397): filter, then a flat
count and rounded sums; the `KeyError` of a column-less frame propagates. -/
def summaryFor (df : PandasFrame) (op : ℤ) : Except String OperationSummary :=
  (filter_frame_by_operation_type df op).map fun filtered =>
    { operation_type := op
      name := operation_names op
      count := filtered.length
      total_amount := round2 ((filtered.map (·.amount)).sum)
      total_fee := round2 ((filtered.map (·.fee)).sum)
      total_psp_buy_fee := round2 ((filtered.map (·.psp_buy_fee)).sum) }

/-- Embeds `get_summary` (main.py:372-399): the four operations in fixed
order; on the stored column-less empty frame, the first filter call raises
`KeyError` and the endpoint errors instead of answering. -/
def get_summary (store : FrameStore) : Except String (List OperationSummary) :=
  match store.df with
  | Option.none => Except.error "No data loaded"
  | some df => do
      let s1 ← summaryFor df 1
      let s2 ← summaryFor df 2
      let s3 ← summaryFor df 3
      let s4 ← summaryFor df 4
      pure [s1, s2, s3, s4]

/-! ### Concrete inputs used in counterexamples and witnesses -/

/-- A purchase record with acquirer "B" (appears first in the inputs
below). -/
def recAcqB : TransactionRecord :=
  { legal_name := "M", brand_name := "", acquirer := "B", currency := "EUR",
    amount := 1, fee := 0, psp_buy_fee := 0, type := "purchase", status := "paid" }

/-- A purchase record with acquirer "A" (appears second). -/
def recAcqA : TransactionRecord :=
  { legal_name := "M", brand_name := "", acquirer := "A", currency := "EUR",
    amount := 1, fee := 0, psp_buy_fee := 0, type := "purchase", status := "paid" }

/-- A sheet row whose Status cell is the number 5 (not literal text); its
Type cell is the literal text "purchase". -/
def rowNumericStatus : Row :=
  [CellValue.str "L", CellValue.str "BR", CellValue.str "A", CellValue.none, CellValue.none,
   CellValue.str "EUR", CellValue.num 10, CellValue.none, CellValue.num 1, CellValue.none,
   CellValue.none, CellValue.num 0, CellValue.none, CellValue.none,
   CellValue.str "purchase", CellValue.num 5]

/-- A sheet row whose Status cell is the formula remnant "=B5". -/
def rowFormulaStatus : Row :=
  [CellValue.str "L", CellValue.str "BR", CellValue.str "A", CellValue.none, CellValue.none,
   CellValue.str "EUR", CellValue.num 10, CellValue.none, CellValue.num 1, CellValue.none,
   CellValue.none, CellValue.num 0, CellValue.none, CellValue.none,
   CellValue.str "purchase", CellValue.str "=B5"]

/-- A sheet whose data region holds exactly the two rows above (the first
`HEADER_ROW + 1` rows are title/header filler). -/
def sheetNonTextStatus : List Row :=
  List.replicate (HEADER_ROW + 1) [] ++ [rowNumericStatus, rowFormulaStatus]

/-- A well-formed one-row sheet (literal text type and status). -/
def rowGood : Row :=
  [CellValue.str "L", CellValue.str "BR", CellValue.str "A", CellValue.none, CellValue.none,
   CellValue.str "EUR", CellValue.num 10, CellValue.none, CellValue.num 1, CellValue.none,
   CellValue.none, CellValue.num 0, CellValue.none, CellValue.none,
   CellValue.str "Purchase", CellValue.str "Paid"]

/-- A sheet whose data region holds exactly `rowGood`. -/
def sheetGood : List Row :=
  List.replicate (HEADER_ROW + 1) [] ++ [rowGood]

/-- A sheet whose data region holds only blank rows: zero admissible rows,
so the loader produces the empty, column-less DataFrame. -/
def sheetBlank : List Row :=
  List.replicate (HEADER_ROW + 3) []

/-! ## Theorems -/

attribute [ext] Totals

/-- Rounding zero gives zero. -/
theorem round2_zero : round2 0 = 0 := by
  unfold round2 roundHalfEven
  norm_num

/-! ### Fiberwise-sum machinery

Sums over a list of records split along the distinct values of a key
function; this is the content of the pandas three-column `groupby` and of
the two inner `unique()` loops of the pivot builders. -/

/-- Summing `if a = k then c + h k else h k` over a duplicate-free list
containing `a` adds `c` exactly once. -/
theorem map_sum_if_mem {κ M : Type} [DecidableEq κ] [AddCommMonoid M]
    (ks : List κ) (hnd : ks.Nodup) (a : κ) (ha : a ∈ ks) (c : M) (h : κ → M) :
    (ks.map fun k => if a = k then c + h k else h k).sum = c + (ks.map h).sum := by
  induction ks with
  | nil => simp at ha
  | cons k ks ih =>
      rw [List.nodup_cons] at hnd
      by_cases hak : a = k
      · subst hak
        have htail : (ks.map fun k => if a = k then c + h k else h k) = ks.map h := by
          refine List.map_congr_left fun x hx => ?_
          have : a ≠ x := fun hax => hnd.1 (hax ▸ hx)
          simp [this]
        simp [htail, add_assoc]
      · have ha' : a ∈ ks := by
          rcases List.mem_cons.mp ha with h1 | h1
          · exact absurd h1 hak
          · exact h1
        simp only [List.map_cons, if_neg hak, List.sum_cons, ih hnd.2 ha']
        rw [add_left_comm]

/-- A mapped sum over `rs` splits into fiberwise sums along any
duplicate-free key list covering the keys of `rs`. -/
theorem sum_fiber {α κ M : Type} [DecidableEq κ] [AddCommMonoid M]
    (f : α → κ) (g : α → M) (ks : List κ) (hnd : ks.Nodup)
    (rs : List α) (hcov : ∀ r ∈ rs, f r ∈ ks) :
    (rs.map g).sum =
      (ks.map fun k => ((rs.filter fun r => decide (f r = k)).map g).sum).sum := by
  induction rs with
  | nil => simp
  | cons r rs ih =>
      have hcov' : ∀ x ∈ rs, f x ∈ ks := fun x hx => hcov x (List.mem_cons_of_mem _ hx)
      have hstep : (ks.map fun k => (((r :: rs).filter fun x => decide (f x = k)).map g).sum) =
          ks.map fun k =>
            if f r = k then g r + ((rs.filter fun x => decide (f x = k)).map g).sum
            else ((rs.filter fun x => decide (f x = k)).map g).sum := by
        refine List.map_congr_left fun k hk => ?_
        by_cases hfk : f r = k
        · simp [List.filter_cons, hfk]
        · simp [List.filter_cons, hfk]
      rw [List.map_cons, List.sum_cons, hstep,
        map_sum_if_mem ks hnd (f r) (hcov r (List.mem_cons_self r rs)) (g r), ih hcov']

/-- Mapping the constant 1 and summing counts length. -/
theorem sum_map_one {α : Type} (rs : List α) : (rs.map fun _ => (1 : ℕ)).sum = rs.length := by
  induction rs with
  | nil => rfl
  | cons r rs ih => simp [ih, Nat.add_comm]

/-- Componentwise, `totalsSum` projects to the sum of the amount components. -/
theorem totalsSum_amount (ts : List Totals) :
    (totalsSum ts).amount = (ts.map (·.amount)).sum := by
  induction ts with
  | nil => rfl
  | cons t ts ih => simp [totalsSum, ih]

/-- Componentwise, `totalsSum` projects to the sum of the fee components. -/
theorem totalsSum_fee (ts : List Totals) :
    (totalsSum ts).fee = (ts.map (·.fee)).sum := by
  induction ts with
  | nil => rfl
  | cons t ts ih => simp [totalsSum, ih]

/-- Componentwise, `totalsSum` projects to the sum of the psp_buy_fee components. -/
theorem totalsSum_psp (ts : List Totals) :
    (totalsSum ts).psp_buy_fee = (ts.map (·.psp_buy_fee)).sum := by
  induction ts with
  | nil => rfl
  | cons t ts ih => simp [totalsSum, ih]

/-- Componentwise, `totalsSum` projects to the sum of the count components. -/
theorem totalsSum_count (ts : List Totals) :
    (totalsSum ts).count = (ts.map (·.count)).sum := by
  induction ts with
  | nil => rfl
  | cons t ts ih => simp [totalsSum, ih]

/-- The exact aggregate of a record list splits into fiberwise exact
aggregates along any duplicate-free key list covering its keys. -/
theorem exactTotals_fiber {κ : Type} [DecidableEq κ]
    (f : TransactionRecord → κ) (ks : List κ) (hnd : ks.Nodup)
    (rs : List TransactionRecord) (hcov : ∀ r ∈ rs, f r ∈ ks) :
    exactTotals rs =
      totalsSum (ks.map fun k => exactTotals (rs.filter fun r => decide (f r = k))) := by
  ext
  · rw [totalsSum_amount, List.map_map]
    exact sum_fiber f (·.amount) ks hnd rs hcov
  · rw [totalsSum_fee, List.map_map]
    exact sum_fiber f (·.fee) ks hnd rs hcov
  · rw [totalsSum_psp, List.map_map]
    exact sum_fiber f (·.psp_buy_fee) ks hnd rs hcov
  · rw [totalsSum_count, List.map_map]
    show rs.length = (ks.map fun k => (exactTotals (rs.filter fun r => decide (f r = k))).count).sum
    have : (ks.map fun k => (exactTotals (rs.filter fun r => decide (f r = k))).count) =
        ks.map fun k => ((rs.filter fun r => decide (f r = k)).map fun _ => (1 : ℕ)).sum := by
      refine List.map_congr_left fun k _ => ?_
      rw [show (exactTotals (rs.filter fun r => decide (f r = k))).count =
        (rs.filter fun r => decide (f r = k)).length from rfl, sum_map_one]
    rw [this, ← sum_fiber f (fun _ => (1 : ℕ)) ks hnd rs hcov, sum_map_one]

/-! ### Deduplication and filter plumbing -/

/-- Deduplication keeps a subsequence of its input. -/
theorem pdUniqueAux_sublist {α : Type} [DecidableEq α] (seen : List α) (l : List α) :
    (pdUniqueAux seen l).Sublist l := by
  induction l generalizing seen with
  | nil => simp [pdUniqueAux]
  | cons x xs ih =>
      by_cases hx : x ∈ seen
      · simp only [pdUniqueAux, if_pos hx]
        exact (ih seen).cons x
      · simp only [pdUniqueAux, if_neg hx]
        exact (ih (x :: seen)).cons₂ x

/-- Membership in `pdUniqueAux`. -/
theorem mem_pdUniqueAux {α : Type} [DecidableEq α] {seen l : List α} {a : α} :
    a ∈ pdUniqueAux seen l ↔ a ∈ l ∧ a ∉ seen := by
  induction l generalizing seen with
  | nil => simp [pdUniqueAux]
  | cons x xs ih =>
      by_cases hx : x ∈ seen
      · simp only [pdUniqueAux, if_pos hx, ih, List.mem_cons]
        constructor
        · rintro ⟨h1, h2⟩
          exact ⟨Or.inr h1, h2⟩
        · rintro ⟨h1 | h1, h2⟩
          · exact absurd (h1 ▸ hx) h2
          · exact ⟨h1, h2⟩
      · simp only [pdUniqueAux, if_neg hx, List.mem_cons, ih]
        constructor
        · rintro (rfl | ⟨h1, h2⟩)
          · exact ⟨Or.inl rfl, hx⟩
          · exact ⟨Or.inr h1, fun hs => h2 (Or.inr hs)⟩
        · rintro ⟨h1, h2⟩
          rcases eq_or_ne a x with rfl | hax
          · exact Or.inl rfl
          · rcases h1 with rfl | h1
            · exact absurd rfl hax
            · refine Or.inr ⟨h1, fun hc => ?_⟩
              rcases hc with rfl | hc'
              · exact hax rfl
              · exact h2 hc'

/-- Deduplication output is duplicate-free. -/
theorem pdUniqueAux_nodup {α : Type} [DecidableEq α] (seen : List α) (l : List α) :
    (pdUniqueAux seen l).Nodup := by
  induction l generalizing seen with
  | nil => simp [pdUniqueAux]
  | cons x xs ih =>
      by_cases hx : x ∈ seen
      · simp only [pdUniqueAux, if_pos hx]
        exact ih seen
      · simp only [pdUniqueAux, if_neg hx]
        refine List.nodup_cons.mpr ⟨fun hmem => ?_, ih (x :: seen)⟩
        exact (mem_pdUniqueAux.mp hmem).2 (List.mem_cons_self x seen)

/-- Deduplication preserves the set of members as its input. -/
theorem pdUnique_mem {α : Type} [DecidableEq α] {l : List α} {a : α} :
    a ∈ pdUnique l ↔ a ∈ l := by
  simp [pdUnique, mem_pdUniqueAux]

/-- First-appearance deduplication is duplicate-free. -/
theorem pdUnique_nodup {α : Type} [DecidableEq α] (l : List α) : (pdUnique l).Nodup :=
  pdUniqueAux_nodup [] l

/-- First-appearance deduplication keeps a subsequence of its input. -/
theorem pdUnique_sublist {α : Type} [DecidableEq α] (l : List α) : (pdUnique l).Sublist l :=
  pdUniqueAux_sublist [] l

/-- Filtering a mapped list filters the source along the composition. -/
theorem filter_map_comm {α β : Type} (f : α → β) (p : β → Bool) (l : List α) :
    (l.map f).filter p = (l.filter fun a => p (f a)).map f := by
  induction l with
  | nil => rfl
  | cons x xs ih =>
      simp only [List.map_cons, List.filter_cons]
      by_cases hp : p (f x)
      · simp [hp, ih]
      · simp [hp, ih]

/-- Two decide-filters fuse into the conjunction. -/
theorem filter_decide_and {α : Type} (p q : α → Prop) [DecidablePred p] [DecidablePred q]
    (l : List α) :
    ((l.filter fun a => decide (p a)).filter fun a => decide (q a)) =
      l.filter fun a => decide (p a ∧ q a) := by
  induction l with
  | nil => rfl
  | cons x xs ih =>
      by_cases hp : p x <;> by_cases hq : q x <;>
        simp [List.filter_cons, hp, hq, ih]

/-- A fiber of the full row key is the fiber of the three componentwise
equations. -/
theorem filter_rowKey_eq (k1f k2f : TransactionRecord → String)
    (df : List TransactionRecord) (k : String × String × String) :
    (df.filter fun r => decide (rowKey k1f k2f r = k)) =
      df.filter fun r => decide (k1f r = k.1 ∧ k2f r = k.2.1 ∧ r.currency = k.2.2) := by
  refine List.filter_congr fun r _ => ?_
  rw [decide_eq_decide]
  simp [rowKey, Prod.ext_iff]

/-! ### Aggregate rows versus record fibers -/

/-- Rounded totals over aggregate rows for a key list equal the rounded sum
of the per-key exact aggregates. -/
theorem totalsOfRows_mkGRow (k1f k2f : TransactionRecord → String)
    (df : List TransactionRecord) (lks : List (String × String × String)) :
    totalsOfRows (lks.map (mkGRow k1f k2f df)) =
      roundTotals (totalsSum (lks.map fun k =>
        exactTotals (df.filter fun r => decide (rowKey k1f k2f r = k)))) := by
  ext <;>
    simp only [totalsOfRows, roundTotals, totalsSum_amount, totalsSum_fee, totalsSum_psp,
      totalsSum_count, List.map_map] <;> rfl

/-- The exact aggregate of the records whose key satisfies `p` is the sum of
the per-key exact aggregates over the keys satisfying `p`, for any
duplicate-free key list covering the dataset. -/
theorem exact_fiber_filter (k1f k2f : TransactionRecord → String)
    (df : List TransactionRecord) (ks : List (String × String × String))
    (hnd : ks.Nodup) (hcov : ∀ r ∈ df, rowKey k1f k2f r ∈ ks)
    (p : (String × String × String) → Bool) :
    exactTotals (df.filter fun r => p (rowKey k1f k2f r)) =
      totalsSum ((ks.filter p).map fun k =>
        exactTotals (df.filter fun r => decide (rowKey k1f k2f r = k))) := by
  have hcov' : ∀ r ∈ df.filter fun r => p (rowKey k1f k2f r),
      rowKey k1f k2f r ∈ ks.filter p := by
    intro r hr
    rw [List.mem_filter] at hr ⊢
    exact ⟨hcov r hr.1, hr.2⟩
  rw [exactTotals_fiber (rowKey k1f k2f) (ks.filter p) (hnd.filter p) _ hcov']
  refine congrArg totalsSum (List.map_congr_left fun k hk => ?_)
  have hpk : p k = true := (List.mem_filter.mp hk).2
  congr 1
  rw [List.filter_filter]
  refine List.filter_congr fun r _ => ?_
  by_cases hkey : rowKey k1f k2f r = k
  · simp [hkey, hpk]
  · simp [hkey]

/-- Rounded totals over the aggregate rows whose key satisfies `p` report
the rounded exact aggregate of the records whose key satisfies `p`. -/
theorem totalsOfRows_filter (k1f k2f : TransactionRecord → String)
    (df : List TransactionRecord) (ks : List (String × String × String))
    (hnd : ks.Nodup) (hcov : ∀ r ∈ df, rowKey k1f k2f r ∈ ks)
    (p : (String × String × String) → Bool) :
    totalsOfRows ((ks.filter p).map (mkGRow k1f k2f df)) =
      roundTotals (exactTotals (df.filter fun r => p (rowKey k1f k2f r))) := by
  rw [totalsOfRows_mkGRow, exact_fiber_filter k1f k2f df ks hnd hcov p]

/-- Rounded totals over all aggregate rows report the rounded exact
aggregate of the whole dataset. -/
theorem totalsOfRows_full (k1f k2f : TransactionRecord → String)
    (df : List TransactionRecord) (ks : List (String × String × String))
    (hnd : ks.Nodup) (hcov : ∀ r ∈ df, rowKey k1f k2f r ∈ ks) :
    totalsOfRows (ks.map (mkGRow k1f k2f df)) = roundTotals (exactTotals df) := by
  have h := totalsOfRows_filter k1f k2f df ks hnd hcov (fun _ => true)
  simpa using h

/-! ### The string order used by the pandas groupby sort -/

/-- The char-list order is irreflexive. -/
theorem listLtB_irrefl (l : List Char) : listLtB l l = false := by
  induction l with
  | nil => rfl
  | cons c cs ih => simp [listLtB, ih]

/-- The char-list order is asymmetric. -/
theorem listLtB_asymm : ∀ {a b : List Char}, listLtB a b = true → listLtB b a = false := by
  intro a
  induction a with
  | nil =>
      intro b h
      cases b with
      | nil => simp [listLtB] at h
      | cons d ds => rfl
  | cons c cs ih =>
      intro b h
      cases b with
      | nil => simp [listLtB] at h
      | cons d ds =>
          simp only [listLtB] at h ⊢
          by_cases h1 : c.toNat < d.toNat
          · have h2 : ¬d.toNat < c.toNat := by omega
            simp [h1, h2]
          · by_cases h2 : d.toNat < c.toNat
            · simp [h1, h2] at h
            · simp only [if_neg h1, if_neg h2] at h ⊢
              exact ih h

/-- The char-list order is transitive. -/
theorem listLtB_trans :
    ∀ {a b c : List Char}, listLtB a b = true → listLtB b c = true → listLtB a c = true := by
  intro a
  induction a with
  | nil =>
      intro b c hab hbc
      cases b with
      | nil => simp [listLtB] at hab
      | cons y ys =>
          cases c with
          | nil => simp [listLtB] at hbc
          | cons z zs => rfl
  | cons x xs ih =>
      intro b c hab hbc
      cases b with
      | nil => simp [listLtB] at hab
      | cons y ys =>
          cases c with
          | nil => simp [listLtB] at hbc
          | cons z zs =>
              simp only [listLtB] at hab hbc ⊢
              by_cases h1 : x.toNat < y.toNat <;> by_cases h2 : y.toNat < z.toNat
              · have h5 : x.toNat < z.toNat := by omega
                simp [h5]
              · by_cases h3 : z.toNat < y.toNat
                · simp [h2, h3] at hbc
                · have h5 : x.toNat < z.toNat := by omega
                  simp [h5]
              · by_cases h3 : y.toNat < x.toNat
                · simp [h1, h3] at hab
                · have h5 : x.toNat < z.toNat := by omega
                  simp [h5]
              · by_cases h3 : y.toNat < x.toNat
                · simp [h1, h3] at hab
                · by_cases h4 : z.toNat < y.toNat
                  · simp [h2, h4] at hbc
                  · have h5 : ¬x.toNat < z.toNat := by omega
                    have h6 : ¬z.toNat < x.toNat := by omega
                    simp only [if_neg h1, if_neg h3] at hab
                    simp only [if_neg h2, if_neg h4] at hbc
                    simp only [if_neg h5, if_neg h6]
                    exact ih hab hbc

/-- If neither of two char lists is less than the other, they are equal. -/
theorem listLtB_connex :
    ∀ {a b : List Char}, listLtB a b = false → listLtB b a = false → a = b := by
  intro a
  induction a with
  | nil =>
      intro b h1 _
      cases b with
      | nil => rfl
      | cons d ds => simp [listLtB] at h1
  | cons c cs ih =>
      intro b h1 h2
      cases b with
      | nil => simp [listLtB] at h2
      | cons d ds =>
          simp only [listLtB] at h1 h2
          by_cases hcd : c.toNat < d.toNat
          · simp [hcd] at h1
          · by_cases hdc : d.toNat < c.toNat
            · simp [hdc] at h2
            · have hnat : c.toNat = d.toNat := by omega
              have hch : c = d := by
                rw [← Char.ofNat_toNat c, hnat, Char.ofNat_toNat]
              subst hch
              simp only [if_neg hcd, if_neg hdc] at h1 h2
              rw [ih h1 h2]

/-- The string order is irreflexive. -/
theorem strLtB_irrefl (a : String) : strLtB a a = false := listLtB_irrefl _

/-- The string order is asymmetric. -/
theorem strLtB_asymm {a b : String} (h : strLtB a b = true) : strLtB b a = false :=
  listLtB_asymm h

/-- The string order is transitive. -/
theorem strLtB_trans {a b c : String} (h1 : strLtB a b = true) (h2 : strLtB b c = true) :
    strLtB a c = true :=
  listLtB_trans h1 h2

/-- If neither string is less than the other, they are equal. -/
theorem strLtB_connex {a b : String} (h1 : strLtB a b = false) (h2 : strLtB b a = false) :
    a = b := by
  have h : a.toList = b.toList := listLtB_connex h1 h2
  exact String.ext h

/-- Weakly ordered and distinct strings are strictly ordered. -/
theorem strLeB_ne_lt {s t : String} (h1 : strLeB s t = true) (h2 : s ≠ t) :
    strLtB s t = true := by
  unfold strLeB at h1
  rw [Bool.not_eq_true'] at h1
  cases h3 : strLtB s t
  · exact absurd (strLtB_connex h3 h1) h2
  · rfl

/-- The weak string order is transitive. -/
theorem strLeB_trans {a b c : String} (h1 : strLeB a b = true) (h2 : strLeB b c = true) :
    strLeB a c = true := by
  unfold strLeB at h1 h2 ⊢
  rw [Bool.not_eq_true'] at h1 h2 ⊢
  cases h3 : strLtB c a
  · rfl
  · cases h4 : strLtB a b
    · have hab := strLtB_connex h4 h1
      rw [hab] at h3
      rw [h2] at h3
      exact h3.symm
    · have h5 := strLtB_trans h3 h4
      rw [h2] at h5
      exact h5.symm

/-- Totality of the groupby sort order. -/
instance : IsTotal (String × String × String) keyOrder := by
  constructor
  intro a b
  unfold keyOrder keyLe
  by_cases h1 : a.1 = b.1
  · rw [if_pos h1, if_pos h1.symm]
    by_cases h2 : a.2.1 = b.2.1
    · rw [if_pos h2, if_pos h2.symm]
      unfold strLeB
      cases h3 : strLtB b.2.2 a.2.2
      · left
        rfl
      · right
        rw [strLtB_asymm h3]
        rfl
    · have h2' : ¬b.2.1 = a.2.1 := fun he => h2 he.symm
      rw [if_neg h2, if_neg h2']
      cases h3 : strLtB a.2.1 b.2.1
      · cases h4 : strLtB b.2.1 a.2.1
        · exact absurd (strLtB_connex h3 h4) h2
        · exact Or.inr rfl
      · exact Or.inl rfl
  · have h1' : ¬b.1 = a.1 := fun he => h1 he.symm
    rw [if_neg h1, if_neg h1']
    cases h3 : strLtB a.1 b.1
    · cases h4 : strLtB b.1 a.1
      · exact absurd (strLtB_connex h3 h4) h1
      · exact Or.inr rfl
    · exact Or.inl rfl

/-- Transitivity of the groupby sort order. -/
instance : IsTrans (String × String × String) keyOrder := by
  constructor
  intro a b c hab hbc
  unfold keyOrder keyLe at hab hbc ⊢
  by_cases hab1 : a.1 = b.1 <;> by_cases hbc1 : b.1 = c.1
  · rw [if_pos hab1] at hab
    rw [if_pos hbc1] at hbc
    rw [if_pos (hab1.trans hbc1)]
    by_cases hab2 : a.2.1 = b.2.1 <;> by_cases hbc2 : b.2.1 = c.2.1
    · rw [if_pos hab2] at hab
      rw [if_pos hbc2] at hbc
      rw [if_pos (hab2.trans hbc2)]
      exact strLeB_trans hab hbc
    · rw [if_pos hab2] at hab
      rw [if_neg hbc2] at hbc
      have hac2 : ¬a.2.1 = c.2.1 := by
        rw [hab2]
        exact hbc2
      rw [if_neg hac2, hab2]
      exact hbc
    · rw [if_neg hab2] at hab
      have hac2 : ¬a.2.1 = c.2.1 := by
        rw [← hbc2]
        exact hab2
      rw [if_neg hac2, ← hbc2]
      exact hab
    · rw [if_neg hab2] at hab
      rw [if_neg hbc2] at hbc
      have hlt := strLtB_trans hab hbc
      have hac2 : ¬a.2.1 = c.2.1 := fun he => by
        rw [he] at hlt
        rw [strLtB_irrefl] at hlt
        exact Bool.noConfusion hlt
      rw [if_neg hac2]
      exact hlt
  · rw [if_pos hab1] at hab
    rw [if_neg hbc1] at hbc
    have hac1 : ¬a.1 = c.1 := by
      rw [hab1]
      exact hbc1
    rw [if_neg hac1, hab1]
    exact hbc
  · rw [if_neg hab1] at hab
    have hac1 : ¬a.1 = c.1 := by
      rw [← hbc1]
      exact hab1
    rw [if_neg hac1, ← hbc1]
    exact hab
  · rw [if_neg hab1] at hab
    rw [if_neg hbc1] at hbc
    have hlt := strLtB_trans hab hbc
    have hac1 : ¬a.1 = c.1 := fun he => by
      rw [he] at hlt
      rw [strLtB_irrefl] at hlt
      exact Bool.noConfusion hlt
    rw [if_neg hac1]
    exact hlt

/-- The sort order weakly orders first components. -/
theorem keyOrder_fst_le {x y : String × String × String} (h : keyOrder x y) :
    strLeB x.1 y.1 = true := by
  unfold keyOrder keyLe at h
  by_cases h1 : x.1 = y.1
  · rw [h1]
    unfold strLeB
    rw [strLtB_irrefl]
    rfl
  · rw [if_neg h1] at h
    unfold strLeB
    rw [strLtB_asymm h]
    rfl

/-- Within a fixed first component the sort order weakly orders second
components. -/
theorem keyOrder_snd_le {a : String} {x y : String × String × String}
    (hx : x.1 = a) (hy : y.1 = a) (h : keyOrder x y) : strLeB x.2.1 y.2.1 = true := by
  unfold keyOrder keyLe at h
  rw [if_pos (hx.trans hy.symm)] at h
  by_cases h2 : x.2.1 = y.2.1
  · rw [h2]
    unfold strLeB
    rw [strLtB_irrefl]
    rfl
  · rw [if_neg h2] at h
    unfold strLeB
    rw [strLtB_asymm h]
    rfl

/-- Within fixed first and second components the sort order on distinct keys
strictly orders third components. -/
theorem keyOrder_thd_lt {a l : String} {x y : String × String × String}
    (hx : x.1 = a ∧ x.2.1 = l) (hy : y.1 = a ∧ y.2.1 = l) (hne : x ≠ y)
    (h : keyOrder x y) : strLtB x.2.2 y.2.2 = true := by
  unfold keyOrder keyLe at h
  rw [if_pos (hx.1.trans hy.1.symm), if_pos (hx.2.trans hy.2.symm)] at h
  refine strLeB_ne_lt h fun he => hne ?_
  obtain ⟨x1, x2, x3⟩ := x
  obtain ⟨y1, y2, y3⟩ := y
  simp only at hx hy he
  rw [hx.1, hx.2, hy.1.symm, hy.2.symm] at *
  rw [he]

/-- Three decide-filters fuse into the right-associated conjunction. -/
theorem filter_decide_and3 {α : Type} (p q s : α → Prop)
    [DecidablePred p] [DecidablePred q] [DecidablePred s] (l : List α) :
    ((l.filter fun a => decide (p a ∧ q a)).filter fun a => decide (s a)) =
      l.filter fun a => decide (p a ∧ q a ∧ s a) := by
  rw [filter_decide_and (fun a => p a ∧ q a) s l]
  refine List.filter_congr fun x _ => ?_
  rw [decide_eq_decide]
  tauto

/-- The non-empty branch of `build_pivot`, written out over the sorted
distinct key list `S`. -/
theorem build_pivot_eq (k1f k2f : TransactionRecord → String) (df : List TransactionRecord)
    (hdf : ¬df.isEmpty = true) (S : List (String × String × String))
    (hSdef : S = List.insertionSort keyOrder (pdUnique (df.map (rowKey k1f k2f)))) :
    build_pivot k1f k2f df =
      { groups :=
          (pdUnique ((S.map (mkGRow k1f k2f df)).map (·.k1))).map fun a =>
            { key := a
              children :=
                (pdUnique (((S.map (mkGRow k1f k2f df)).filter fun g =>
                  decide (g.k1 = a)).map (·.k2))).map fun l =>
                  { key := l
                    currencies :=
                      (((S.map (mkGRow k1f k2f df)).filter fun g =>
                        decide (g.k1 = a)).filter fun g => decide (g.k2 = l)).map fun row =>
                        { currency := row.currency
                          amount := round2 row.amount
                          fee := round2 row.fee
                          psp_buy_fee := round2 row.psp_buy_fee
                          count := row.count }
                    subtotals :=
                      totalsOfRows (((S.map (mkGRow k1f k2f df)).filter fun g =>
                        decide (g.k1 = a)).filter fun g => decide (g.k2 = l)) }
              subtotals :=
                totalsOfRows ((S.map (mkGRow k1f k2f df)).filter fun g => decide (g.k1 = a)) }
        totals := totalsOfRows (S.map (mkGRow k1f k2f df)) } := by
  subst hSdef
  unfold build_pivot
  rw [if_neg hdf]
  rfl

/-- Core lemma for C1 and C3: the parametrized pivot builder satisfies both
the rounded-reporting invariant and exact additivity of the pre-rounding
aggregates, over any dataset. -/
theorem build_pivot_exact (k1f k2f : TransactionRecord → String) (df : List TransactionRecord) :
    RoundedReporting k1f k2f df (build_pivot k1f k2f df) ∧
    ExactAdditivity k1f k2f df (build_pivot k1f k2f df) := by
  unfold RoundedReporting ExactAdditivity
  by_cases hdf : df.isEmpty
  · have hnil : df = [] := by
      cases df
      · rfl
      · simp at hdf
    subst hnil
    have hb : build_pivot k1f k2f [] = ⟨[], ⟨0, 0, 0, 0⟩⟩ := rfl
    rw [hb]
    refine ⟨⟨?_, ?_⟩, ?_, ?_⟩
    · simp [roundTotals, exactTotals, round2_zero]
    · intro G hG
      simp at hG
    · simp [exactTotals, totalsSum]
    · intro G hG
      simp at hG
  · obtain ⟨S, hSdef⟩ :
        ∃ S, S = List.insertionSort keyOrder (pdUnique (df.map (rowKey k1f k2f))) := ⟨_, rfl⟩
    have hperm : S.Perm (pdUnique (df.map (rowKey k1f k2f))) := by
      rw [hSdef]
      exact List.perm_insertionSort _ _
    have hndS : S.Nodup := hperm.nodup_iff.mpr (pdUnique_nodup _)
    have hcovS : ∀ r ∈ df, rowKey k1f k2f r ∈ S := fun r hr =>
      hperm.mem_iff.mpr (pdUnique_mem.mpr (List.mem_map_of_mem _ hr))
    have hb := build_pivot_eq k1f k2f df hdf S hSdef
    rw [hb]
    refine ⟨⟨?_, ?_⟩, ?_, ?_⟩
    · -- grand totals are the rounded exact aggregate of the whole dataset
      exact totalsOfRows_full k1f k2f df S hndS hcovS
    · -- per-node rounded reporting
      intro G hG
      rcases List.mem_map.mp hG with ⟨a, _, rfl⟩
      refine ⟨?_, ?_⟩
      · rw [filter_map_comm]
        exact totalsOfRows_filter k1f k2f df S hndS hcovS _
      · intro c hc
        rcases List.mem_map.mp hc with ⟨l, _, rfl⟩
        refine ⟨?_, ?_⟩
        · rw [filter_map_comm, filter_map_comm, filter_decide_and]
          exact totalsOfRows_filter k1f k2f df S hndS hcovS _
        · intro e he
          rcases List.mem_map.mp he with ⟨row, hrow, rfl⟩
          rw [filter_map_comm, filter_map_comm, filter_decide_and] at hrow
          rcases List.mem_map.mp hrow with ⟨k, hk, rfl⟩
          have hkf : k.1 = a ∧ k.2.1 = l := of_decide_eq_true (List.mem_filter.mp hk).2
          have hfil : (df.filter fun r => decide (rowKey k1f k2f r = k)) =
              df.filter fun r => decide (k1f r = a ∧ k2f r = l ∧ r.currency = k.2.2) := by
            rw [filter_rowKey_eq, hkf.1, hkf.2]
          refine ⟨?_, ?_, ?_, ?_⟩
          · show round2 (exactTotals (df.filter fun r =>
                decide (rowKey k1f k2f r = k))).amount =
              round2 (exactTotals (df.filter fun r =>
                decide (k1f r = a ∧ k2f r = l ∧ r.currency = k.2.2))).amount
            rw [hfil]
          · show round2 (exactTotals (df.filter fun r =>
                decide (rowKey k1f k2f r = k))).fee =
              round2 (exactTotals (df.filter fun r =>
                decide (k1f r = a ∧ k2f r = l ∧ r.currency = k.2.2))).fee
            rw [hfil]
          · show round2 (exactTotals (df.filter fun r =>
                decide (rowKey k1f k2f r = k))).psp_buy_fee =
              round2 (exactTotals (df.filter fun r =>
                decide (k1f r = a ∧ k2f r = l ∧ r.currency = k.2.2))).psp_buy_fee
            rw [hfil]
          · show (exactTotals (df.filter fun r =>
                decide (rowKey k1f k2f r = k))).count =
              (exactTotals (df.filter fun r =>
                decide (k1f r = a ∧ k2f r = l ∧ r.currency = k.2.2))).count
            rw [hfil]
    · -- grand exact additivity over the level-1 groups
      have hcovA : ∀ r ∈ df,
          k1f r ∈ pdUnique ((S.map (mkGRow k1f k2f df)).map (·.k1)) := by
        intro r hr
        refine pdUnique_mem.mpr (List.mem_map.mpr
          ⟨mkGRow k1f k2f df (rowKey k1f k2f r), ?_, rfl⟩)
        exact List.mem_map.mpr ⟨rowKey k1f k2f r, hcovS r hr, rfl⟩
      rw [List.map_map]
      exact exactTotals_fiber k1f _ (pdUnique_nodup _) df hcovA
    · -- per-node exact additivity
      intro G hG
      rcases List.mem_map.mp hG with ⟨a, _, rfl⟩
      refine ⟨?_, ?_⟩
      · -- level-1 aggregate is the sum over the children
        have hcovB : ∀ r ∈ df.filter fun r => decide (k1f r = a),
            k2f r ∈ pdUnique (((S.map (mkGRow k1f k2f df)).filter fun g =>
              decide (g.k1 = a)).map (·.k2)) := by
          intro r hr
          rw [List.mem_filter] at hr
          have hk1 : k1f r = a := of_decide_eq_true hr.2
          refine pdUnique_mem.mpr (List.mem_map.mpr
            ⟨mkGRow k1f k2f df (rowKey k1f k2f r), ?_, rfl⟩)
          refine List.mem_filter.mpr
            ⟨List.mem_map.mpr ⟨rowKey k1f k2f r, hcovS r hr.1, rfl⟩, ?_⟩
          exact decide_eq_true
            (show (mkGRow k1f k2f df (rowKey k1f k2f r)).k1 = a from hk1)
        rw [List.map_map, exactTotals_fiber k2f _ (pdUnique_nodup _) _ hcovB]
        refine congrArg totalsSum (List.map_congr_left fun l _ => congrArg exactTotals ?_)
        exact filter_decide_and (fun r => k1f r = a) (fun r => k2f r = l) df
      · -- level-2 aggregate is the sum over the currency lines
        intro c hc
        rcases List.mem_map.mp hc with ⟨l, _, rfl⟩
        have hmData : ((S.map (mkGRow k1f k2f df)).filter fun g =>
              decide (g.k1 = a)).filter (fun g => decide (g.k2 = l)) =
            (S.filter fun k => decide ((mkGRow k1f k2f df k).k1 = a ∧
              (mkGRow k1f k2f df k).k2 = l)).map (mkGRow k1f k2f df) := by
          rw [filter_map_comm, filter_map_comm, filter_decide_and]
        have hndC : ((((S.map (mkGRow k1f k2f df)).filter fun g =>
            decide (g.k1 = a)).filter (fun g => decide (g.k2 = l))).map
              (·.currency)).Nodup := by
          rw [hmData, List.map_map]
          refine (hndS.filter _).map_on ?_
          intro x hx y hy hxy
          have hx' : x.1 = a ∧ x.2.1 = l := of_decide_eq_true (List.mem_filter.mp hx).2
          have hy' : y.1 = a ∧ y.2.1 = l := of_decide_eq_true (List.mem_filter.mp hy).2
          have hxy' : x.2.2 = y.2.2 := hxy
          obtain ⟨x1, x2, x3⟩ := x
          obtain ⟨y1, y2, y3⟩ := y
          simp only at hx' hy' hxy'
          rw [hx'.1, hx'.2, hy'.1, hy'.2, hxy']
        have hcovC : ∀ r ∈ df.filter fun r => decide (k1f r = a ∧ k2f r = l),
            r.currency ∈ (((S.map (mkGRow k1f k2f df)).filter fun g =>
              decide (g.k1 = a)).filter (fun g => decide (g.k2 = l))).map (·.currency) := by
          intro r hr
          rw [List.mem_filter] at hr
          have hcond : k1f r = a ∧ k2f r = l := of_decide_eq_true hr.2
          refine List.mem_map.mpr ⟨mkGRow k1f k2f df (rowKey k1f k2f r), ?_, rfl⟩
          refine List.mem_filter.mpr ⟨List.mem_filter.mpr
            ⟨List.mem_map.mpr ⟨rowKey k1f k2f r, hcovS r hr.1, rfl⟩, ?_⟩, ?_⟩
          · exact decide_eq_true
              (show (mkGRow k1f k2f df (rowKey k1f k2f r)).k1 = a from hcond.1)
          · exact decide_eq_true
              (show (mkGRow k1f k2f df (rowKey k1f k2f r)).k2 = l from hcond.2)
        rw [List.map_map,
          exactTotals_fiber (fun r => r.currency) _ hndC _ hcovC, List.map_map]
        refine congrArg totalsSum (List.map_congr_left fun row _ => congrArg exactTotals ?_)
        exact filter_decide_and3 (fun r => k1f r = a) (fun r => k2f r = l)
          (fun r => r.currency = row.currency) df

/-- Core lemma for C2 (amended): every level of a built pivot tree lists its
keys in strictly ascending string order. -/
theorem build_pivot_ascending (k1f k2f : TransactionRecord → String)
    (df : List TransactionRecord) : AscendingKeys (build_pivot k1f k2f df) := by
  unfold AscendingKeys
  by_cases hdf : df.isEmpty
  · have hnil : df = [] := by
      cases df
      · rfl
      · simp at hdf
    subst hnil
    have hb : build_pivot k1f k2f [] = ⟨[], ⟨0, 0, 0, 0⟩⟩ := rfl
    rw [hb]
    refine ⟨List.Pairwise.nil, ?_⟩
    intro G hG
    simp at hG
  · obtain ⟨S, hSdef⟩ :
        ∃ S, S = List.insertionSort keyOrder (pdUnique (df.map (rowKey k1f k2f))) := ⟨_, rfl⟩
    have hperm : S.Perm (pdUnique (df.map (rowKey k1f k2f))) := by
      rw [hSdef]
      exact List.perm_insertionSort _ _
    have hndS : S.Nodup := hperm.nodup_iff.mpr (pdUnique_nodup _)
    have hsorted : S.Pairwise keyOrder := by
      rw [hSdef]
      exact List.sorted_insertionSort keyOrder _
    rw [build_pivot_eq k1f k2f df hdf S hSdef]
    constructor
    · -- level-1 keys ascend
      refine List.pairwise_map.mpr (List.pairwise_map.mpr ?_)
      have hM : ((S.map (mkGRow k1f k2f df)).map (·.k1)).Pairwise
          (fun s t => strLeB s t = true) := by
        refine List.pairwise_map.mpr (List.pairwise_map.mpr ?_)
        exact hsorted.imp fun h => keyOrder_fst_le h
      have hle := hM.sublist (pdUnique_sublist _)
      exact (hle.and (pdUnique_nodup _)).imp fun hp => strLeB_ne_lt hp.1 hp.2
    · intro G hG
      rcases List.mem_map.mp hG with ⟨a, _, rfl⟩
      constructor
      · -- level-2 keys ascend within the group
        refine List.pairwise_map.mpr (List.pairwise_map.mpr ?_)
        rw [filter_map_comm, List.map_map]
        have hmem1 : ∀ x ∈ S.filter fun k => decide ((mkGRow k1f k2f df k).k1 = a),
            x.1 = a := fun x hx => of_decide_eq_true (List.mem_filter.mp hx).2
        have hM : ((S.filter fun k => decide ((mkGRow k1f k2f df k).k1 = a)).map
            ((·.k2) ∘ mkGRow k1f k2f df)).Pairwise (fun s t => strLeB s t = true) := by
          refine List.pairwise_map.mpr ?_
          exact (hsorted.filter _).imp_of_mem fun hx hy h =>
            keyOrder_snd_le (hmem1 _ hx) (hmem1 _ hy) h
        have hle := hM.sublist (pdUnique_sublist _)
        exact (hle.and (pdUnique_nodup _)).imp fun hp => strLeB_ne_lt hp.1 hp.2
      · -- currency lines ascend within the child
        intro c hc
        rcases List.mem_map.mp hc with ⟨l, _, rfl⟩
        refine List.pairwise_map.mpr (List.pairwise_map.mpr ?_)
        rw [filter_map_comm, filter_map_comm, filter_decide_and]
        refine List.pairwise_map.mpr ?_
        have hmem : ∀ x ∈ S.filter fun k => decide ((mkGRow k1f k2f df k).k1 = a ∧
            (mkGRow k1f k2f df k).k2 = l), x.1 = a ∧ x.2.1 = l :=
          fun x hx => of_decide_eq_true (List.mem_filter.mp hx).2
        exact ((hsorted.filter _).and (hndS.filter _)).imp_of_mem fun hx hy h =>
          keyOrder_thd_lt (hmem _ hx) (hmem _ hy) h.2 h.1

/-- C4: for each operation code 1-4, the filter succeeds and returns exactly
the records satisfying the documented (type, status) predicate — no false
positives or negatives — as an order-preserving sublist of the input (the
input itself is untouched: the embedding is pure, as is the pandas boolean
mask selection it models). -/
theorem filter_by_operation_type_exact (df : List TransactionRecord) :
    (∃ l, filter_by_operation_type df 1 = Except.ok l ∧ l.Sublist df ∧
      ∀ r, r ∈ l ↔ r ∈ df ∧ r.type = "purchase" ∧
        (r.status = "paid" ∨ r.status = "refunded" ∨ r.status = "chargedback")) ∧
    (∃ l, filter_by_operation_type df 2 = Except.ok l ∧ l.Sublist df ∧
      ∀ r, r ∈ l ↔ r ∈ df ∧ r.type = "refund" ∧ r.status = "success") ∧
    (∃ l, filter_by_operation_type df 3 = Except.ok l ∧ l.Sublist df ∧
      ∀ r, r ∈ l ↔ r ∈ df ∧ r.type = "chargeback" ∧ r.status = "success") ∧
    (∃ l, filter_by_operation_type df 4 = Except.ok l ∧ l.Sublist df ∧
      ∀ r, r ∈ l ↔ r ∈ df ∧ r.type = "payout" ∧ r.status = "success") := by
  refine ⟨⟨_, rfl, List.filter_sublist _, fun r => ?_⟩,
    ⟨_, rfl, List.filter_sublist _, fun r => ?_⟩,
    ⟨_, rfl, List.filter_sublist _, fun r => ?_⟩,
    ⟨_, rfl, List.filter_sublist _, fun r => ?_⟩⟩ <;>
    simp [List.mem_filter, and_assoc, or_assoc]

/-- C5 counterexample: the normalizer maps the European-formatted text
"1.234,56" to 0, not to 1234.56 — after the comma → period replacement the
text "1.234.56" has two periods and fails to parse, so the parse-failure
branch returns 0. -/
theorem parse_european_number_thousands_counterexample :
    parse_european_number (CellValue.str "1.234,56") = 0 ∧
    parse_european_number (CellValue.str "1.234,56") ≠ (1234.56 : ℚ) := by
  have h : parse_european_number (CellValue.str "1.234,56") = 0 := by decide
  refine ⟨h, ?_⟩
  rw [h]
  norm_num

/-- C5 (amended): the numeric normalizer is total and never raises: an
absent/null cell gives 0, text beginning with "=" gives 0, text that fails
to parse after the comma → period replacement gives 0 — in particular the
comma-and-period text "1.234,56" gives 0, not 1234.56, because the
replacement yields the unparseable "1.234.56" — while comma-decimal text
without a thousands separator, such as "1234,56", yields 1234.56. -/
theorem parse_european_number_amended (s : String) :
    parse_european_number CellValue.none = 0 ∧
    (startsWithEq s = true → parse_european_number (CellValue.str s) = 0) ∧
    (pyFloat (pyReplaceChar ',' '.' s) = Option.none →
      parse_european_number (CellValue.str s) = 0) ∧
    parse_european_number (CellValue.str "1.234,56") = 0 ∧
    parse_european_number (CellValue.str "1234,56") = (1234.56 : ℚ) := by
  refine ⟨rfl, fun hs => ?_, fun hp => ?_, by decide, ?_⟩
  · simp [parse_european_number, hs]
  · simp [parse_european_number, hp]
  · have h : parse_european_number (CellValue.str "1234,56") =
        (digitsToNat ['1', '2', '3', '4'] : ℚ) +
          (digitsToNat ['5', '6'] : ℚ) / (10 : ℚ) ^ 2 := rfl
    have h1 : digitsToNat ['1', '2', '3', '4'] = 1234 := by decide
    have h2 : digitsToNat ['5', '6'] = 56 := by decide
    rw [h, h1, h2]
    norm_num

/-- C5 witness: the amended statement evaluated at the formula text
"=A1+B2" and at the unparseable text "abc". -/
theorem parse_european_number_amended_witness :
    parse_european_number (CellValue.str "=A1+B2") = 0 ∧
    parse_european_number (CellValue.str "abc") = 0 :=
  ⟨(parse_european_number_amended "=A1+B2").2.1 (by decide),
   (parse_european_number_amended "abc").2.2.1 (by decide)⟩

/-- C8: the pivot aggregator maps an empty filtered record set — whatever
operation produced it, including from an empty dataset — to a tree with no
groups and an all-zero, zero-count grand total, in both views, and never
fails. -/
theorem build_pivot_empty_input (df : List TransactionRecord) (op : ℤ)
    (l : List TransactionRecord) (hf : filter_by_operation_type df op = Except.ok l)
    (hl : l = []) :
    build_pivot_by_acquirer l = ⟨[], ⟨0, 0, 0, 0⟩⟩ ∧
    build_pivot_by_merchant l = ⟨[], ⟨0, 0, 0, 0⟩⟩ := by
  subst hl
  exact ⟨rfl, rfl⟩

/-- C8 witness: the empty dataset under the purchase filter. -/
theorem build_pivot_empty_input_witness :
    build_pivot_by_acquirer [] = ⟨[], ⟨0, 0, 0, 0⟩⟩ ∧
    build_pivot_by_merchant [] = ⟨[], ⟨0, 0, 0, 0⟩⟩ :=
  build_pivot_empty_input [] 1 [] rfl rfl

/-- C7: a structural load failure (unsupported extension, or a source that
cannot be opened/parsed as a workbook) aborts the whole load with an error
and leaves the previously stored dataset and source name untouched (hence
still queryable); on success the store is replaced wholesale by the fully
constructed new dataset — there is no partial update in any path.  Both load
endpoints are covered. -/
theorem load_endpoints_atomic (store : DataStore) (fn : String)
    (src : Except String (List Row)) (found : Bool) :
    ((".xlsx".toList.isSuffixOf fn.toList) = false →
      upload_file store fn src = (store, Except.error "Only .xlsx files are supported")) ∧
    (∀ e, src = Except.error e → (".xlsx".toList.isSuffixOf fn.toList) = true →
      upload_file store fn src = (store, Except.error e)) ∧
    (∀ sheet, src = Except.ok sheet → (".xlsx".toList.isSuffixOf fn.toList) = true →
      upload_file store fn src =
        ({ df := some (load_xlsx_data sheet), filename := some fn },
          Except.ok { success := true, filename := fn,
                      total_rows := (load_xlsx_data sheet).length })) ∧
    (found = false →
      load_default_file store found src = (store, Except.error "Default file not found")) ∧
    (∀ e, src = Except.error e → found = true →
      load_default_file store found src = (store, Except.error e)) ∧
    (∀ sheet, src = Except.ok sheet → found = true →
      load_default_file store found src =
        ({ df := some (load_xlsx_data sheet), filename := some "tab.xlsx" },
          Except.ok { success := true, filename := "tab.xlsx",
                      total_rows := (load_xlsx_data sheet).length })) := by
  refine ⟨fun hx => ?_, fun e he hx => ?_, fun sheet hs hx => ?_,
    fun hf => ?_, fun e he hf => ?_, fun sheet hs hf => ?_⟩
  · unfold upload_file; rw [hx]; rfl
  · unfold upload_file; rw [hx, he]; rfl
  · unfold upload_file; rw [hx, hs]; rfl
  · unfold load_default_file; rw [hf]; rfl
  · unfold load_default_file; rw [hf, he]; rfl
  · unfold load_default_file; rw [hf, hs]; rfl

/-- C7 witness: a failing load against a store holding a one-record dataset
leaves the store unchanged; a succeeding load replaces it wholesale. -/
theorem load_endpoints_atomic_witness :
    upload_file ⟨some [recAcqA], some "old.xlsx"⟩ "new.xlsx" (Except.error "bad zip") =
      (⟨some [recAcqA], some "old.xlsx"⟩, Except.error "bad zip") ∧
    load_default_file ⟨some [recAcqA], some "old.xlsx"⟩ true (Except.ok sheetGood) =
      (⟨some (load_xlsx_data sheetGood), some "tab.xlsx"⟩,
        Except.ok ⟨true, "tab.xlsx", (load_xlsx_data sheetGood).length⟩) :=
  ⟨(load_endpoints_atomic ⟨some [recAcqA], some "old.xlsx"⟩ "new.xlsx"
      (Except.error "bad zip") true).2.1 "bad zip" rfl (by decide),
   (load_endpoints_atomic ⟨some [recAcqA], some "old.xlsx"⟩ "tab.xlsx"
      (Except.ok sheetGood) true).2.2.2.2.2 sheetGood rfl rfl⟩

/-- C9 (code bug): the code violates the claim's empty-dataset clause.  A
load with zero admissible rows stores the column-less `pd.DataFrame([])` —
the store mutation (main.py:282) precedes the statistics crash
(main.py:286), so that state is reachable even though the load itself
errors — and `get_summary` on that store raises `KeyError('type')` at
`df["type"]` inside the operation filter (main.py:110) instead of returning
four zero-count, zero-valued entries.  On a stored frame that carries its
columns — every dataset with at least one record — the four fixed-order
entries are produced exactly as the claim states: exact counts and
round2-of-flat-sum totals per operation. -/
theorem get_summary_empty_dataset_keyerror (rows : List TransactionRecord)
    (fn : Option String) :
    (load_xlsx_frame sheetBlank = ⟨[], false⟩ ∧
      upload_file_frame ⟨Option.none, Option.none⟩ "empty.xlsx" (Except.ok sheetBlank) =
        (⟨some ⟨[], false⟩, some "empty.xlsx"⟩, Except.error "KeyError: type") ∧
      get_summary ⟨some ⟨[], false⟩, fn⟩ = Except.error "KeyError: type") ∧
    get_summary ⟨some ⟨rows, true⟩, fn⟩ = Except.ok
      [ { operation_type := 1, name := "Purchase (paid/refunded/chargedback)",
          count := (rows.filter fun r => decide (r.type = "purchase") &&
            (decide (r.status = "paid") || decide (r.status = "refunded") ||
              decide (r.status = "chargedback"))).length,
          total_amount := round2 (((rows.filter fun r => decide (r.type = "purchase") &&
            (decide (r.status = "paid") || decide (r.status = "refunded") ||
              decide (r.status = "chargedback"))).map (·.amount)).sum),
          total_fee := round2 (((rows.filter fun r => decide (r.type = "purchase") &&
            (decide (r.status = "paid") || decide (r.status = "refunded") ||
              decide (r.status = "chargedback"))).map (·.fee)).sum),
          total_psp_buy_fee := round2 (((rows.filter fun r => decide (r.type = "purchase") &&
            (decide (r.status = "paid") || decide (r.status = "refunded") ||
              decide (r.status = "chargedback"))).map (·.psp_buy_fee)).sum) },
        { operation_type := 2, name := "Refund (success)",
          count := (rows.filter fun r => decide (r.type = "refund") &&
            decide (r.status = "success")).length,
          total_amount := round2 (((rows.filter fun r => decide (r.type = "refund") &&
            decide (r.status = "success")).map (·.amount)).sum),
          total_fee := round2 (((rows.filter fun r => decide (r.type = "refund") &&
            decide (r.status = "success")).map (·.fee)).sum),
          total_psp_buy_fee := round2 (((rows.filter fun r => decide (r.type = "refund") &&
            decide (r.status = "success")).map (·.psp_buy_fee)).sum) },
        { operation_type := 3, name := "Chargeback (success)",
          count := (rows.filter fun r => decide (r.type = "chargeback") &&
            decide (r.status = "success")).length,
          total_amount := round2 (((rows.filter fun r => decide (r.type = "chargeback") &&
            decide (r.status = "success")).map (·.amount)).sum),
          total_fee := round2 (((rows.filter fun r => decide (r.type = "chargeback") &&
            decide (r.status = "success")).map (·.fee)).sum),
          total_psp_buy_fee := round2 (((rows.filter fun r => decide (r.type = "chargeback") &&
            decide (r.status = "success")).map (·.psp_buy_fee)).sum) },
        { operation_type := 4, name := "Payout (success)",
          count := (rows.filter fun r => decide (r.type = "payout") &&
            decide (r.status = "success")).length,
          total_amount := round2 (((rows.filter fun r => decide (r.type = "payout") &&
            decide (r.status = "success")).map (·.amount)).sum),
          total_fee := round2 (((rows.filter fun r => decide (r.type = "payout") &&
            decide (r.status = "success")).map (·.fee)).sum),
          total_psp_buy_fee := round2 (((rows.filter fun r => decide (r.type = "payout") &&
            decide (r.status = "success")).map (·.psp_buy_fee)).sum) } ] :=
  ⟨⟨rfl, rfl, rfl⟩, rfl⟩

/-- C10: with a dataset loaded and a valid operation code, every view_type
other than 1 — e.g. 0 or 3, not just the documented 2 — selects the
by-merchant (legal_name → acquirer → currency) tree without error; only
view_type = 1 selects the by-acquirer tree. -/
theorem get_pivot_view_dispatch (df : List TransactionRecord) (fn : Option String)
    (op view : ℤ) (cur : Option String) (l : List TransactionRecord)
    (hf : filter_by_operation_type df op = Except.ok l) :
    (view ≠ 1 → get_pivot ⟨some df, fn⟩ op view cur =
      Except.ok ⟨op, view, cur, build_pivot_by_merchant (applyCurrencyFilter cur l)⟩) ∧
    (view = 1 → get_pivot ⟨some df, fn⟩ op view cur =
      Except.ok ⟨op, view, cur, build_pivot_by_acquirer (applyCurrencyFilter cur l)⟩) := by
  constructor <;> intro hv <;> simp [get_pivot, hf, hv]

/-- C10 witness: view_type 0 and 3 both produce the by-merchant tree on a
two-record dataset; view_type 1 produces the by-acquirer tree. -/
theorem get_pivot_view_dispatch_witness :
    get_pivot ⟨some [recAcqB, recAcqA], Option.none⟩ 1 0 Option.none =
      Except.ok ⟨1, 0, Option.none,
        build_pivot_by_merchant (applyCurrencyFilter Option.none [recAcqB, recAcqA])⟩ ∧
    get_pivot ⟨some [recAcqB, recAcqA], Option.none⟩ 1 3 Option.none =
      Except.ok ⟨1, 3, Option.none,
        build_pivot_by_merchant (applyCurrencyFilter Option.none [recAcqB, recAcqA])⟩ ∧
    get_pivot ⟨some [recAcqB, recAcqA], Option.none⟩ 1 1 Option.none =
      Except.ok ⟨1, 1, Option.none,
        build_pivot_by_acquirer (applyCurrencyFilter Option.none [recAcqB, recAcqA])⟩ :=
  ⟨(get_pivot_view_dispatch [recAcqB, recAcqA] Option.none 1 0 Option.none
      [recAcqB, recAcqA] rfl).1 (by decide),
   (get_pivot_view_dispatch [recAcqB, recAcqA] Option.none 1 3 Option.none
      [recAcqB, recAcqA] rfl).1 (by decide),
   (get_pivot_view_dispatch [recAcqB, recAcqA] Option.none 1 1 Option.none
      [recAcqB, recAcqA] rfl).2 rfl⟩

/-- C1: in both pivot views, over any dataset, the exact pre-rounding
aggregate underlying every node is the sum of its immediate children's exact
aggregates (each level-2 subtotal over its currency lines, each level-1
subtotal over its children, and the grand total over the level-1 groups,
hence also over all leaves), the stored subtotals being the 2-decimal
roundings of exactly those pre-rounding sums — rounding happens only at
reporting time. -/
theorem pivot_subtotal_invariant (df : List TransactionRecord) :
    (ExactAdditivity (fun r => r.acquirer) (fun r => r.legal_name) df
        (build_pivot_by_acquirer df) ∧
      RoundedReporting (fun r => r.acquirer) (fun r => r.legal_name) df
        (build_pivot_by_acquirer df)) ∧
    (ExactAdditivity (fun r => r.legal_name) (fun r => r.acquirer) df
        (build_pivot_by_merchant df) ∧
      RoundedReporting (fun r => r.legal_name) (fun r => r.acquirer) df
        (build_pivot_by_merchant df)) :=
  ⟨⟨(build_pivot_exact _ _ df).2, (build_pivot_exact _ _ df).1⟩,
    ⟨(build_pivot_exact _ _ df).2, (build_pivot_exact _ _ df).1⟩⟩

/-- C3: in both pivot views, every reported monetary figure (currency-line
amount/fee/psp_buy_fee, every subtotal, and the grand total) is the
2-decimal rounding of the exact unrounded sum over the node's underlying
records — rounding is applied after summation at each level independently,
never to the inputs of a higher-level sum — and every reported count is the
exact number of underlying records. -/
theorem pivot_rounding_policy (df : List TransactionRecord) :
    RoundedReporting (fun r => r.acquirer) (fun r => r.legal_name) df
      (build_pivot_by_acquirer df) ∧
    RoundedReporting (fun r => r.legal_name) (fun r => r.acquirer) df
      (build_pivot_by_merchant df) :=
  ⟨(build_pivot_exact _ _ df).1, (build_pivot_exact _ _ df).1⟩

/-- C2 counterexample: on a two-record input whose acquirers first appear in
the order "B", "A", the pivot enumerates the acquirer groups as
["A", "B"] — ascending sorted order (the pandas groupby sorts keys by
default) — not the first-appearance order ["B", "A"] the claim requires. -/
theorem pivot_group_order_counterexample :
    (build_pivot_by_acquirer [recAcqB, recAcqA]).groups.map Level1Group.key = ["A", "B"] ∧
    pdUnique ([recAcqB, recAcqA].map fun r => r.acquirer) = ["B", "A"] ∧
    (build_pivot_by_acquirer [recAcqB, recAcqA]).groups.map Level1Group.key ≠
      pdUnique ([recAcqB, recAcqA].map fun r => r.acquirer) :=
  ⟨by decide, by decide, by decide⟩

/-- C2 (amended): group enumeration order at every level of the pivot tree
(both views) is strictly ascending lexicographic (code-point) order of the
group keys — the sorted order produced by the pandas groupby, not
first-appearance order; aggregation is a pure function of the filtered
record list, so re-running it on the same filtered set reproduces the
identical tree. -/
theorem pivot_group_order_sorted (df : List TransactionRecord) :
    AscendingKeys (build_pivot_by_acquirer df) ∧
    AscendingKeys (build_pivot_by_merchant df) :=
  ⟨build_pivot_ascending _ _ df, build_pivot_ascending _ _ df⟩

/-- C6 counterexample: the data region of `sheetNonTextStatus` holds exactly
two rows, one whose Status cell is the number 5 (not literal text) and one
whose Status cell is the formula remnant "=B5"; the claim requires both rows
to be excluded (an empty dataset), but the loader keeps both — only the Type
cell is required to be literal non-formula text. -/
theorem load_xlsx_nontext_status_counterexample :
    (match getCell rowNumericStatus (COLUMNS "status") with
      | CellValue.str _ => true
      | _ => false) = false ∧
    getCell rowFormulaStatus (COLUMNS "status") = CellValue.str "=B5" ∧
    startsWithEq "=B5" = true ∧
    (load_xlsx_data sheetNonTextStatus).length = 2 :=
  ⟨by decide, by decide, by decide, by decide⟩

/-- C6 (amended): a data-region row yields a record exactly when its Type
cell is literal text not beginning with "=" and its Status cell is merely
present (not absent); the Status cell need not be literal text — numeric or
formula statuses are stringified and kept.  Consequently every record in the
dataset comes from a row with a literal, non-formula, non-numeric Type cell
and a present Status cell. -/
theorem load_xlsx_row_admission (sheet : List Row) :
    (load_xlsx_data sheet).length =
      ((sheet.drop (HEADER_ROW + 1)).filter fun row =>
        (match getCell row (COLUMNS "type") with
          | CellValue.str s => !startsWithEq s
          | _ => false) &&
        !decide (getCell row (COLUMNS "status") = CellValue.none)).length ∧
    ∀ rec ∈ load_xlsx_data sheet, ∃ row, row ∈ sheet.drop (HEADER_ROW + 1) ∧
      (∃ s, getCell row (COLUMNS "type") = CellValue.str s ∧ startsWithEq s = false ∧
        rec.type = pyLowerStrip s) ∧
      getCell row (COLUMNS "status") ≠ CellValue.none := by
  have hp : ∀ row : Row, (parseDataRow row).isSome =
      ((match getCell row (COLUMNS "type") with
        | CellValue.str s => !startsWithEq s
        | _ => false) &&
       !decide (getCell row (COLUMNS "status") = CellValue.none)) := by
    intro row
    by_cases h1 : getCell row (COLUMNS "type") = CellValue.none ∨
        getCell row (COLUMNS "status") = CellValue.none
    · have hnone : parseDataRow row = Option.none := by
        unfold parseDataRow
        rw [if_pos h1]
      rw [hnone]
      rcases h1 with h1 | h1
      · rw [h1]
        simp
      · rw [h1]
        simp
    · push_neg at h1
      obtain ⟨h1t, h1s⟩ := h1
      have hstep : parseDataRow row =
          (match getCell row (COLUMNS "type") with
            | CellValue.str s =>
                if startsWithEq s then Option.none
                else some
                  { legal_name := strOrEmpty (getCell row (COLUMNS "legal_name"))
                    brand_name := strOrEmpty (getCell row (COLUMNS "brand_name"))
                    acquirer := strOrEmpty (getCell row (COLUMNS "acquirer"))
                    currency := strOrEmpty (getCell row (COLUMNS "currency"))
                    amount := parse_european_number (getCell row (COLUMNS "amount"))
                    fee := parse_european_number (getCell row (COLUMNS "fee"))
                    psp_buy_fee := parse_european_number (getCell row (COLUMNS "psp_buy_fee"))
                    type := pyLowerStrip s
                    status := pyStrLowerTrim (getCell row (COLUMNS "status")) }
            | _ => Option.none) := by
        unfold parseDataRow
        rw [if_neg (not_or.mpr ⟨h1t, h1s⟩)]
      rw [hstep]
      cases htv : getCell row (COLUMNS "type") with
      | none => exact absurd htv h1t
      | num q => simp [h1s]
      | str s =>
          cases hss : startsWithEq s
          · simp [hss, h1s]
          · simp [hss]
      | other => simp [h1s]
  constructor
  · show ((sheet.drop (HEADER_ROW + 1)).filterMap parseDataRow).length = _
    generalize sheet.drop (HEADER_ROW + 1) = rows
    induction rows with
    | nil => rfl
    | cons row rows ih =>
        rw [List.filterMap_cons, List.filter_cons]
        cases hrow : parseDataRow row with
        | none =>
            have hpred : ((match getCell row (COLUMNS "type") with
                | CellValue.str s => !startsWithEq s
                | _ => false) &&
               !decide (getCell row (COLUMNS "status") = CellValue.none)) = false := by
              rw [← hp row, hrow]
              rfl
            rw [hpred]
            simpa using ih
        | some rec =>
            have hpred : ((match getCell row (COLUMNS "type") with
                | CellValue.str s => !startsWithEq s
                | _ => false) &&
               !decide (getCell row (COLUMNS "status") = CellValue.none)) = true := by
              rw [← hp row, hrow]
              rfl
            rw [hpred]
            simpa using ih
  · intro rec hrec
    rcases List.mem_filterMap.mp hrec with ⟨row, hrowmem, hparse⟩
    by_cases h1 : getCell row (COLUMNS "type") = CellValue.none ∨
        getCell row (COLUMNS "status") = CellValue.none
    · have hnone : parseDataRow row = Option.none := by
        unfold parseDataRow
        rw [if_pos h1]
      rw [hnone] at hparse
      exact absurd hparse (by simp)
    · push_neg at h1
      obtain ⟨h1t, h1s⟩ := h1
      have hstep : parseDataRow row =
          (match getCell row (COLUMNS "type") with
            | CellValue.str s =>
                if startsWithEq s then Option.none
                else some
                  { legal_name := strOrEmpty (getCell row (COLUMNS "legal_name"))
                    brand_name := strOrEmpty (getCell row (COLUMNS "brand_name"))
                    acquirer := strOrEmpty (getCell row (COLUMNS "acquirer"))
                    currency := strOrEmpty (getCell row (COLUMNS "currency"))
                    amount := parse_european_number (getCell row (COLUMNS "amount"))
                    fee := parse_european_number (getCell row (COLUMNS "fee"))
                    psp_buy_fee := parse_european_number (getCell row (COLUMNS "psp_buy_fee"))
                    type := pyLowerStrip s
                    status := pyStrLowerTrim (getCell row (COLUMNS "status")) }
            | _ => Option.none) := by
        unfold parseDataRow
        rw [if_neg (not_or.mpr ⟨h1t, h1s⟩)]
      rw [hstep] at hparse
      cases htv : getCell row (COLUMNS "type") with
      | none => exact absurd htv h1t
      | num q =>
          rw [htv] at hparse
          exact absurd hparse (by simp)
      | str s =>
          rw [htv] at hparse
          dsimp only at hparse
          cases hss : startsWithEq s
          · rw [hss] at hparse
            simp only [Bool.false_eq_true, if_false] at hparse
            have hrec' := (Option.some.injEq _ _).mp hparse
            refine ⟨row, hrowmem, ⟨s, htv, hss, ?_⟩, h1s⟩
            rw [← hrec']
          · rw [hss] at hparse
            simp at hparse
      | other =>
          rw [htv] at hparse
          exact absurd hparse (by simp)

/-- C6 witness: the amended admission statement evaluated at the good
one-row sheet and its extracted record. -/
theorem load_xlsx_row_admission_witness :
    ∃ row, row ∈ sheetGood.drop (HEADER_ROW + 1) ∧
      (∃ s, getCell row (COLUMNS "type") = CellValue.str s ∧ startsWithEq s = false ∧
        ((load_xlsx_data sheetGood).headI).type = pyLowerStrip s) ∧
      getCell row (COLUMNS "status") ≠ CellValue.none :=
  (load_xlsx_row_admission sheetGood).2 (load_xlsx_data sheetGood).headI
    (List.mem_cons_self _ _)

end TransferGuru
